import Mathlib

/-!
Shallow embedding of the pocket-tray speech dispatch engine.

Source files embedded:
* `src/tts.rs` — `TTSCommand`, `TTSEvent`, `TTSEngine::new`,
  `TTSEngine::run`, `TTSEngine::speak`;
* `src/clipboard.rs` — the body of one `ClipboardMonitor::run` poll
  iteration;
* `src/settings.rs` — the `VOICES` list.

The synthesis model, audio device and clipboard are external
collaborators.  They enter the model as inputs: the chunk stream a
`Speak` call would receive is supplied by an environment function, the
fallible device operations are booleans, and a clipboard read is an
optional character list.  Every call the engine makes on the audio sink,
every pull of the chunk iterator, and every event sent on the event
channel is recorded in a trace of `Action`s.  Audio sample payloads
(`f32` vectors in the source, produced by `tensor_to_samples`) are
abstracted to `List Int`: the dispatch logic never inspects sample
values, only whether a converted chunk is empty.

The `mpsc` command channel is modelled as the list of commands pending
in enqueue order; `try_recv` pops the head, an empty list stands for
`TryRecvError::Empty` while the sender is connected (`conn = true`) and
for `TryRecvError::Disconnected` otherwise.
-/

namespace PocketTray

/-- Commands sent to the TTS thread (`TTSCommand`, src/tts.rs lines 13-19). -/
inductive TTSCommand where
  | speak (text : String)
  | stop
  | changeVoice (voice : String)
  | shutdown
  deriving DecidableEq

/-- Payloads of `TTSEvent::Error`.  The source formats distinct message
strings (Voice ... not loaded / Audio error ... / Generation error ...);
the three formats are modelled as distinct constructors. -/
inductive ErrMsg where
  | voiceNotLoaded (voice : String)
  | audioError
  | generationError (detail : String)
  deriving DecidableEq

/-- Events sent from the TTS thread (`TTSEvent`, src/tts.rs lines 22-28). -/
inductive TTSEvent where
  | modelLoaded
  | startedSpeaking
  | finishedSpeaking
  | error (msg : ErrMsg)
  deriving DecidableEq

/-- One element of the lazy stream returned by
`self.model.generate_stream_long(text, voice_state)`: either a chunk
(already converted to samples, as `tensor_to_samples` would) or a
generation error. -/
inductive ChunkResult where
  | ok (samples : List Int)
  | err (detail : String)
  deriving DecidableEq

/-- `true` exactly for `ChunkResult.ok`. -/
def chunkOk : ChunkResult → Bool
  | ChunkResult.ok _ => true
  | ChunkResult.err _ => false

/-- `true` exactly for `TTSCommand.speak`. -/
def isSpeakCmd : TTSCommand → Bool
  | TTSCommand.speak _ => true
  | _ => false

/-- `true` exactly for the cancelling commands `Stop` and `Shutdown`. -/
def isCancelCmd : TTSCommand → Bool
  | TTSCommand.stop => true
  | TTSCommand.shutdown => true
  | _ => false

/-- Engine state: the key set of the `voice_states` map (the `ModelState`
values are opaque to the dispatch logic — they are only handed to the
synthesis black box — so only the keys are modelled), the selected
`current_voice`, and the shared `is_speaking` flag. -/
structure Engine where
  voiceStates : List String
  currentVoice : String
  isSpeaking : Bool
  deriving DecidableEq

/-- Observable actions of an engine execution: calls on the audio sink,
pulls of the chunk iterator (`Iterator::next` on the stream returned by
`generate_stream_long`), and events sent on the event channel. -/
inductive Action where
  | sinkCreate
  | sinkStop
  | sinkAppend (samples : List Int)
  | sinkSleepUntilEnd
  | chunkPull
  | event (e : TTSEvent)
  deriving DecidableEq

/-- How the chunk loop of `TTSEngine::speak` ended. -/
inductive LoopExit where
  | exhausted
  | stopped
  | errored
  | shutdownEarly
  | disconnectedEarly
  deriving DecidableEq

/-- Result of the chunk loop: updated engine state, number of commands
dequeued from the command channel, emitted trace, and exit kind. -/
structure LoopOut where
  st : Engine
  consumed : Nat
  trace : List Action
  exit : LoopExit
  deriving DecidableEq

/-- `sink.append(buffer)` guarded by `!samples.is_empty()`
(src/tts.rs lines 217-225). -/
def appendActions (samples : List Int) : List Action :=
  if samples = [] then [] else [Action.sinkAppend samples]

/-- The guarded voice update `if self.voice_states.contains_key(&voice)
{ self.current_voice = voice; }` shared by the run-loop handler
(src/tts.rs lines 139-146) and the mid-utterance handler (src/tts.rs
lines 196-200). -/
def applyChangeVoice (st : Engine) (v : String) : Engine :=
  if v ∈ st.voiceStates then ⟨st.voiceStates, v, st.isSpeaking⟩ else st

/-- The `for chunk_result in self.model.generate_stream_long(..)` loop of
`TTSEngine::speak` (src/tts.rs lines 183-233).  Each iteration first
pulls one chunk from the iterator (`Action.chunkPull`), then performs a
single non-blocking `try_recv` on the command channel, then — unless the
received command cancelled the utterance — consumes the pulled chunk.
`Stop` stops the sink and breaks out of the loop (`LoopExit.stopped`);
`Shutdown` stops the sink, clears `is_speaking` and returns from `speak`
(`LoopExit.shutdownEarly`); a `ChangeVoice` whose identifier is a key of
`voice_states` updates the selection; a nested `Speak` is ignored; a
disconnected channel behaves like `Shutdown`
(`LoopExit.disconnectedEarly`).  An `Err` chunk emits a generation
`Error` event and breaks out (`LoopExit.errored`). -/
def speakLoop (conn : Bool) : Engine → List TTSCommand → List ChunkResult → LoopOut
  | st, _, [] => ⟨st, 0, [], LoopExit.exhausted⟩
  | st, TTSCommand.stop :: _, _ :: _ =>
      ⟨st, 1, [Action.chunkPull, Action.sinkStop], LoopExit.stopped⟩
  | st, TTSCommand.shutdown :: _, _ :: _ =>
      ⟨⟨st.voiceStates, st.currentVoice, false⟩, 1,
        [Action.chunkPull, Action.sinkStop], LoopExit.shutdownEarly⟩
  | st, TTSCommand.changeVoice v :: q, ChunkResult.ok samples :: cs =>
      let r := speakLoop conn (applyChangeVoice st v) q cs
      ⟨r.st, r.consumed + 1, Action.chunkPull :: (appendActions samples ++ r.trace), r.exit⟩
  | st, TTSCommand.changeVoice v :: _, ChunkResult.err e :: _ =>
      ⟨applyChangeVoice st v, 1,
        [Action.chunkPull, Action.event (TTSEvent.error (ErrMsg.generationError e))],
        LoopExit.errored⟩
  | st, TTSCommand.speak _ :: q, ChunkResult.ok samples :: cs =>
      let r := speakLoop conn st q cs
      ⟨r.st, r.consumed + 1, Action.chunkPull :: (appendActions samples ++ r.trace), r.exit⟩
  | st, TTSCommand.speak _ :: _, ChunkResult.err e :: _ =>
      ⟨st, 1,
        [Action.chunkPull, Action.event (TTSEvent.error (ErrMsg.generationError e))],
        LoopExit.errored⟩
  | st, [], ChunkResult.ok samples :: cs =>
      if conn then
        let r := speakLoop conn st [] cs
        ⟨r.st, r.consumed, Action.chunkPull :: (appendActions samples ++ r.trace), r.exit⟩
      else
        ⟨⟨st.voiceStates, st.currentVoice, false⟩, 0,
          [Action.chunkPull, Action.sinkStop], LoopExit.disconnectedEarly⟩
  | st, [], ChunkResult.err e :: _ =>
      if conn then
        ⟨st, 0,
          [Action.chunkPull, Action.event (TTSEvent.error (ErrMsg.generationError e))],
          LoopExit.errored⟩
      else
        ⟨⟨st.voiceStates, st.currentVoice, false⟩, 0,
          [Action.chunkPull, Action.sinkStop], LoopExit.disconnectedEarly⟩

/-- Result of a whole `TTSEngine::speak` call (or of its remainder from
a chunk boundary on): updated engine state, number of commands dequeued
from the command channel during the call, emitted trace. -/
structure SpeakOut where
  st : Engine
  consumed : Nat
  trace : List Action
  deriving DecidableEq

/-- The remainder of `TTSEngine::speak` from a chunk boundary on: the
chunk loop followed by the post-loop code (src/tts.rs lines 235-242),
which waits for the sink to drain if `is_speaking` is still set, clears
`is_speaking` and emits `FinishedSpeaking`.  The post-loop code is
skipped when the loop body executed `return` (the `Shutdown` and
`Disconnected` branches, src/tts.rs lines 191-195 and 207-211). -/
def speakResume (conn : Bool) (st : Engine) (q : List TTSCommand)
    (cs : List ChunkResult) : SpeakOut :=
  let r := speakLoop conn st q cs
  match r.exit with
  | LoopExit.shutdownEarly => ⟨r.st, r.consumed, r.trace⟩
  | LoopExit.disconnectedEarly => ⟨r.st, r.consumed, r.trace⟩
  | _ =>
      ⟨⟨r.st.voiceStates, r.st.currentVoice, false⟩, r.consumed,
        r.trace ++ (if r.st.isSpeaking then [Action.sinkSleepUntilEnd] else [])
          ++ [Action.event TTSEvent.finishedSpeaking]⟩

/-- Environment of the engine: the chunk stream the synthesis black box
produces for a given text and selected voice, and whether
`Sink::try_new` succeeds. -/
structure Env where
  gen : String → String → List ChunkResult
  sinkOk : Bool

/-- `TTSEngine::speak` (src/tts.rs lines 156-243).  First the voice
profile of `current_voice` is looked up (`Error` and return if absent),
then a sink is created (`Error` and return on failure), then
`is_speaking` is set, `StartedSpeaking` is emitted and the chunk loop
runs. -/
def speakFn (env : Env) (st : Engine) (text : String) (q : List TTSCommand)
    (conn : Bool) : SpeakOut :=
  if st.currentVoice ∈ st.voiceStates then
    if env.sinkOk then
      let r := speakResume conn ⟨st.voiceStates, st.currentVoice, true⟩ q
        (env.gen text st.currentVoice)
      ⟨r.st, r.consumed,
        Action.sinkCreate :: Action.event TTSEvent.startedSpeaking :: r.trace⟩
    else ⟨st, 0, [Action.event (TTSEvent.error ErrMsg.audioError)]⟩
  else ⟨st, 0, [Action.event (TTSEvent.error (ErrMsg.voiceNotLoaded st.currentVoice))]⟩

/-- How the run loop ended: `terminated` when `break` was reached (a
`Shutdown` command dequeued by `recv`, or `recv` failing on a
disconnected channel), `blocked` when the pending queue is exhausted
while the sender is still connected, i.e. the loop sits in `recv`
waiting for further commands. -/
inductive RunExit where
  | terminated
  | blocked
  deriving DecidableEq

/-- Result of running the engine loop on a finite pending queue. -/
structure RunOut where
  st : Engine
  trace : List Action
  exit : RunExit
  deriving DecidableEq

/-- Fuel-indexed form of the `TTSEngine::run` command loop (src/tts.rs
lines 131-152).  The fuel only bounds the number of loop iterations so
that the recursion is structural; every iteration dequeues at least one
command, so `q.length` fuel always suffices, and `runLoopF_fuel` below
shows the result does not depend on the fuel once it is sufficient. -/
def runLoopF (env : Env) (conn : Bool) : Nat → Engine → List TTSCommand → RunOut
  | _, st, [] => ⟨st, [], if conn then RunExit.blocked else RunExit.terminated⟩
  | 0, st, _ :: _ => ⟨st, [], if conn then RunExit.blocked else RunExit.terminated⟩
  | n + 1, st, TTSCommand.speak t :: q =>
      let o := speakFn env st t q conn
      let r := runLoopF env conn n o.st (q.drop o.consumed)
      ⟨r.st, o.trace ++ r.trace, r.exit⟩
  | n + 1, st, TTSCommand.stop :: q =>
      runLoopF env conn n ⟨st.voiceStates, st.currentVoice, false⟩ q
  | n + 1, st, TTSCommand.changeVoice v :: q =>
      runLoopF env conn n (applyChangeVoice st v) q
  | _ + 1, st, TTSCommand.shutdown :: _ => ⟨st, [], RunExit.terminated⟩

/-- The `TTSEngine::run` command loop applied to a finite queue of
pending commands (in enqueue order). -/
def runLoop (env : Env) (conn : Bool) (st : Engine) (q : List TTSCommand) : RunOut :=
  runLoopF env conn q.length st q

/-- `TTSEngine::run` (src/tts.rs lines 127-153) including the initial
`ModelLoaded` notification. -/
def runEngine (env : Env) (conn : Bool) (st : Engine) (q : List TTSCommand) : RunOut :=
  let r := runLoop env conn st q
  ⟨r.st, Action.event TTSEvent.modelLoaded :: r.trace, r.exit⟩

/-- Outcome of attempting to load one voice profile in `TTSEngine::new`:
the `{voice}.safetensors` file may be absent, or
`get_voice_state_from_prompt_file` may fail, or the load succeeds. -/
inductive VoiceLoadResult where
  | fileMissing
  | loadError
  | loaded
  deriving DecidableEq

/-- The fatal initialization failures of `TTSEngine::new`, in the order
the source checks them. -/
inductive InitError where
  | modelsDirMissing
  | weightsMissing
  | tokenizerMissing
  | modelLoadFailed
  | noVoices
  | audioInitFailed
  deriving DecidableEq

/-- Environment of `TTSEngine::new`: outcomes of the fallible external
steps — existence of the models directory and required files, model
load, per-voice profile load, and audio output initialization. -/
structure InitEnv where
  modelsDirExists : Bool
  weightsExist : Bool
  tokenizerExists : Bool
  modelLoadOk : Bool
  voiceLoad : String → VoiceLoadResult
  audioOk : Bool

/-- `VOICES` (src/settings.rs lines 56-65). -/
def VOICES : List String :=
  ["alba", "azelma", "cosette", "eponine", "fantine", "javert", "jean", "marius"]

/-- The voice-store loading loop of `TTSEngine::new` (src/tts.rs lines
79-96): a voice identifier ends up in the store exactly when its file
exists and its profile loads; failures are logged and skipped.  The
store keeps `VOICES` order (the source `HashMap` has unspecified
iteration order; only membership matters to the engine logic). -/
def loadVoiceStates (env : InitEnv) : List String :=
  VOICES.filter (fun v => env.voiceLoad v == VoiceLoadResult.loaded)

/-- `TTSEngine::new` (src/tts.rs lines 44-124): check the models
directory, weights and tokenizer, load the model, build the voice store,
fail if it is empty, initialize audio output, then select the initial
voice if it is loaded and otherwise the first loaded voice. -/
def engineNew (env : InitEnv) (initialVoice : String) : Except InitError Engine :=
  if env.modelsDirExists = false then Except.error InitError.modelsDirMissing
  else if env.weightsExist = false then Except.error InitError.weightsMissing
  else if env.tokenizerExists = false then Except.error InitError.tokenizerMissing
  else if env.modelLoadOk = false then Except.error InitError.modelLoadFailed
  else if loadVoiceStates env = [] then Except.error InitError.noVoices
  else if env.audioOk = false then Except.error InitError.audioInitFailed
  else
    Except.ok ⟨loadVoiceStates env,
      if initialVoice ∈ loadVoiceStates env then initialVoice
      else (loadVoiceStates env).head!, false⟩

/-- Rust `str::trim` on a character list: strip leading and trailing
whitespace. -/
def rustTrim (s : List Char) : List Char :=
  ((s.dropWhile Char.isWhitespace).reverse.dropWhile Char.isWhitespace).reverse

/-- Rust `String::len`, i.e. the UTF-8 byte length, of a character
list.  The oversize guard of the source compares this, not the character
count. -/
def utf8Len (s : List Char) : Nat := (s.map Char.utf8Size).sum

/-- One poll iteration of `ClipboardMonitor::run` past the shutdown
check (src/clipboard.rs lines 64-104): skip when monitoring is disabled
or speech is in progress, else read the clipboard (`none` models a
failed / non-text read), trim, skip unchanged or empty text, record but
do not forward text longer than 10000 bytes, and otherwise record it and
forward a `Speak` command.  Returns the new `last_text` and the command
sent, if any. -/
def monitorTick (last : List Char) (enabled speaking : Bool)
    (clip : Option (List Char)) : List Char × Option TTSCommand :=
  if enabled = false then (last, none)
  else if speaking = true then (last, none)
  else
    match clip with
    | none => (last, none)
    | some raw =>
      let text := rustTrim raw
      if text = last ∨ text = [] then (last, none)
      else if 10000 < utf8Len text then (text, none)
      else (text, some (TTSCommand.speak (String.mk text)))

/-- `true` exactly for `Action.chunkPull`. -/
def isPull : Action → Bool
  | Action.chunkPull => true
  | _ => false

/-- Number of chunk pulls recorded in a trace. -/
def pullCount (t : List Action) : Nat :=
  t.countP isPull

/-- Number of sink appends recorded in a trace. -/
def appendCount (t : List Action) : Nat :=
  t.countP (fun a =>
    match a with
    | Action.sinkAppend _ => true
    | _ => false)

/-- Session tracking over a trace: is an utterance session (a created,
not yet stopped or finished sink) active after this action? -/
def actStep (active : Bool) : Action → Bool
  | Action.sinkCreate => true
  | Action.sinkStop => false
  | Action.event TTSEvent.finishedSpeaking => false
  | _ => active

/-- Session discipline for one action: creating a sink is only allowed
when no session is active. -/
def actOk (active : Bool) : Action → Bool
  | Action.sinkCreate => !active
  | _ => true

/-- Session state after a trace. -/
def activeAfter (active : Bool) (t : List Action) : Bool :=
  t.foldl actStep active

/-- A trace never creates a second session while one is active. -/
def closedFrom (active : Bool) : List Action → Bool
  | [] => true
  | a :: r => actOk active a && closedFrom (actStep active a) r

/-- `true` for the actions that the chunk loop itself can emit: chunk
pulls, sink stops, sink appends and generation-error events. -/
def loopAct : Action → Bool
  | Action.chunkPull => true
  | Action.sinkStop => true
  | Action.sinkAppend _ => true
  | Action.event (TTSEvent.error (ErrMsg.generationError _)) => true
  | _ => false

/-! ## Supporting lemmas -/


theorem applyChangeVoice_voiceStates (st : Engine) (v : String) :
    (applyChangeVoice st v).voiceStates = st.voiceStates := by
  unfold applyChangeVoice; split <;> rfl

theorem applyChangeVoice_mem (st : Engine) (v : String)
    (h : st.currentVoice ∈ st.voiceStates) :
    (applyChangeVoice st v).currentVoice ∈ st.voiceStates := by
  unfold applyChangeVoice; split <;> simp_all

theorem speakLoop_voiceStates (conn : Bool) (st : Engine) (q : List TTSCommand)
    (cs : List ChunkResult) :
    (speakLoop conn st q cs).st.voiceStates = st.voiceStates := by
  induction st, q, cs using speakLoop.induct conn <;>
    simp_all [speakLoop, applyChangeVoice_voiceStates]

theorem speakLoop_trace_shape (conn : Bool) (st : Engine) (q : List TTSCommand)
    (cs : List ChunkResult) :
    ∀ a ∈ (speakLoop conn st q cs).trace, loopAct a = true := by
  induction st, q, cs using speakLoop.induct conn <;>
    simp_all [speakLoop, appendActions, loopAct] <;>
      intro a ha <;> rcases ha with ⟨_, rfl⟩ | ha <;> simp_all

theorem speakLoop_mem (conn : Bool) (st : Engine) (q : List TTSCommand)
    (cs : List ChunkResult) (h : st.currentVoice ∈ st.voiceStates) :
    (speakLoop conn st q cs).st.currentVoice ∈ (speakLoop conn st q cs).st.voiceStates := by
  induction st, q, cs using speakLoop.induct conn <;>
    simp_all [speakLoop, applyChangeVoice_mem, applyChangeVoice_voiceStates]

theorem speakLoop_isSpeaking (conn : Bool) (st : Engine) (q : List TTSCommand)
    (cs : List ChunkResult)
    (h1 : (speakLoop conn st q cs).exit ≠ LoopExit.shutdownEarly)
    (h2 : (speakLoop conn st q cs).exit ≠ LoopExit.disconnectedEarly) :
    (speakLoop conn st q cs).st.isSpeaking = st.isSpeaking := by
  induction st, q, cs using speakLoop.induct conn <;>
    simp_all [speakLoop, applyChangeVoice] <;> split <;> simp_all

theorem speakLoop_cancel_sinkStop (conn : Bool) (st : Engine) (q : List TTSCommand)
    (cs : List ChunkResult)
    (h : (speakLoop conn st q cs).exit = LoopExit.stopped ∨
         (speakLoop conn st q cs).exit = LoopExit.shutdownEarly ∨
         (speakLoop conn st q cs).exit = LoopExit.disconnectedEarly) :
    Action.sinkStop ∈ (speakLoop conn st q cs).trace := by
  induction st, q, cs using speakLoop.induct conn <;> simp_all [speakLoop]



theorem closedFrom_append (xs : List Action) : ∀ (a : Bool) (ys : List Action),
    closedFrom a (xs ++ ys) = (closedFrom a xs && closedFrom (activeAfter a xs) ys) := by
  induction xs with
  | nil => intro a ys; simp [closedFrom, activeAfter]
  | cons x xs ih => intro a ys; simp [closedFrom, activeAfter, List.foldl, ih, Bool.and_assoc]

theorem activeAfter_append (a : Bool) (xs ys : List Action) :
    activeAfter a (xs ++ ys) = activeAfter (activeAfter a xs) ys := by
  simp [activeAfter, List.foldl_append]

theorem closedFrom_appendActions (s : List Int) (x : List Action) :
    closedFrom true (appendActions s ++ x) = closedFrom true x := by
  unfold appendActions; split <;> simp [closedFrom, actOk, actStep]

theorem activeAfter_appendActions (s : List Int) (x : List Action) :
    activeAfter true (appendActions s ++ x) = activeAfter true x := by
  unfold appendActions; split <;> simp [activeAfter, List.foldl, actStep]

theorem foldl_actStep_appendActions (s : List Int) :
    List.foldl actStep true (appendActions s) = true := by
  unfold appendActions; split <;> simp [List.foldl, actStep]

theorem speakLoop_session (conn : Bool) (st : Engine) (q : List TTSCommand)
    (cs : List ChunkResult) :
    closedFrom true (speakLoop conn st q cs).trace = true ∧
    activeAfter true (speakLoop conn st q cs).trace =
      (decide ((speakLoop conn st q cs).exit = LoopExit.exhausted) ||
       decide ((speakLoop conn st q cs).exit = LoopExit.errored)) := by
  induction st, q, cs using speakLoop.induct conn <;>
    simp_all [speakLoop, closedFrom, activeAfter, actOk, actStep, List.foldl,
      closedFrom_appendActions, activeAfter_appendActions, foldl_actStep_appendActions]



theorem speakResume_session (conn : Bool) (st : Engine) (q : List TTSCommand)
    (cs : List ChunkResult) :
    closedFrom true (speakResume conn st q cs).trace = true ∧
    activeAfter true (speakResume conn st q cs).trace = false := by
  unfold speakResume
  have hs := speakLoop_session conn st q cs
  cases h3 : (speakLoop conn st q cs).exit <;>
    simp_all [closedFrom_append, activeAfter_append, closedFrom, activeAfter,
      actOk, actStep, List.foldl] <;>
    split <;> simp_all [closedFrom, actOk, actStep, List.foldl]

theorem speakResume_voiceStates (conn : Bool) (st : Engine) (q : List TTSCommand)
    (cs : List ChunkResult) :
    (speakResume conn st q cs).st.voiceStates = st.voiceStates := by
  unfold speakResume
  have h1 := speakLoop_voiceStates conn st q cs
  cases h3 : (speakLoop conn st q cs).exit <;> simp_all

theorem speakResume_mem (conn : Bool) (st : Engine) (q : List TTSCommand)
    (cs : List ChunkResult) (h : st.currentVoice ∈ st.voiceStates) :
    (speakResume conn st q cs).st.currentVoice ∈ (speakResume conn st q cs).st.voiceStates := by
  unfold speakResume
  have h1 := speakLoop_mem conn st q cs h
  cases h3 : (speakLoop conn st q cs).exit <;> simp_all

theorem speakResume_trace_sub (conn : Bool) (st : Engine) (q : List TTSCommand)
    (cs : List ChunkResult) :
    ∀ a ∈ (speakResume conn st q cs).trace,
      a ∈ (speakLoop conn st q cs).trace ∨ a = Action.sinkSleepUntilEnd ∨
        a = Action.event TTSEvent.finishedSpeaking := by
  unfold speakResume
  cases h3 : (speakLoop conn st q cs).exit <;>
    simp only [h3] <;> intro a ha <;>
    first
      | exact Or.inl ha
      | (simp only [List.mem_append, List.mem_singleton] at ha
         rcases ha with (ha | ha) | ha
         · exact Or.inl ha
         · split at ha <;> simp_all
         · simp_all)



theorem speakFn_session (env : Env) (st : Engine) (t : String) (q : List TTSCommand)
    (conn : Bool) :
    closedFrom false (speakFn env st t q conn).trace = true ∧
    activeAfter false (speakFn env st t q conn).trace = false := by
  unfold speakFn
  split
  · split
    · have h := speakResume_session conn ⟨st.voiceStates, st.currentVoice, true⟩ q
        (env.gen t st.currentVoice)
      simp only [activeAfter] at h ⊢
      simp [closedFrom, actOk, actStep, List.foldl, h.1, h.2]
    · simp [closedFrom, actOk, actStep, activeAfter, List.foldl]
  · simp [closedFrom, actOk, actStep, activeAfter, List.foldl]

theorem speakFn_voiceStates (env : Env) (st : Engine) (t : String)
    (q : List TTSCommand) (conn : Bool) :
    (speakFn env st t q conn).st.voiceStates = st.voiceStates := by
  unfold speakFn
  split
  · split
    · have h := speakResume_voiceStates conn ⟨st.voiceStates, st.currentVoice, true⟩ q
        (env.gen t st.currentVoice)
      simp_all
    · rfl
  · rfl

theorem speakFn_mem (env : Env) (st : Engine) (t : String) (q : List TTSCommand)
    (conn : Bool) (h : st.currentVoice ∈ st.voiceStates) :
    (speakFn env st t q conn).st.currentVoice ∈ (speakFn env st t q conn).st.voiceStates := by
  unfold speakFn
  rw [if_pos h]
  by_cases hs : env.sinkOk = true
  · rw [if_pos hs]
    exact speakResume_mem conn ⟨st.voiceStates, st.currentVoice, true⟩ q
      (env.gen t st.currentVoice) (by simpa using h)
  · rw [if_neg hs]
    simpa using h

theorem speakFn_noVoiceErr (env : Env) (st : Engine) (t : String)
    (q : List TTSCommand) (conn : Bool) (h : st.currentVoice ∈ st.voiceStates)
    (v : String) :
    Action.event (TTSEvent.error (ErrMsg.voiceNotLoaded v)) ∉ (speakFn env st t q conn).trace := by
  unfold speakFn
  split
  · split
    · intro hmem
      simp only [List.mem_cons] at hmem
      rcases hmem with h2 | h2 | h2
      · exact absurd h2 (by simp)
      · exact absurd h2 (by simp)
      · rcases speakResume_trace_sub conn ⟨st.voiceStates, st.currentVoice, true⟩ q
          (env.gen t st.currentVoice) _ h2 with h3 | h3 | h3
        · have := speakLoop_trace_shape conn ⟨st.voiceStates, st.currentVoice, true⟩ q
            (env.gen t st.currentVoice) _ h3
          simp [loopAct] at this
        · simp at h3
        · simp at h3
    · simp
  · simp_all



theorem runLoopF_fuel (env : Env) (conn : Bool) :
    ∀ (n m : Nat) (st : Engine) (q : List TTSCommand),
      q.length ≤ n → q.length ≤ m →
      runLoopF env conn n st q = runLoopF env conn m st q := by
  intro n
  induction n with
  | zero =>
    intro m st q hn _
    have : q = [] := List.length_eq_zero.mp (Nat.le_zero.mp hn)
    subst this
    cases m <;> rfl
  | succ n ih =>
    intro m st q hn hm
    cases q with
    | nil => cases m <;> rfl
    | cons c q' =>
      cases m with
      | zero => simp at hm
      | succ m' =>
        have hn' : q'.length ≤ n := by simpa using hn
        have hm' : q'.length ≤ m' := by simpa using hm
        cases c with
        | speak t =>
          simp only [runLoopF]
          rw [ih m' _ _ (le_trans (List.length_drop _ _ ▸ Nat.sub_le _ _) hn')
            (le_trans (List.length_drop _ _ ▸ Nat.sub_le _ _) hm')]
        | stop => simp only [runLoopF]; exact ih m' _ _ hn' hm'
        | changeVoice v => simp only [runLoopF]; exact ih m' _ _ hn' hm'
        | shutdown => rfl

theorem runLoop_nil (env : Env) (conn : Bool) (st : Engine) :
    runLoop env conn st [] =
      ⟨st, [], if conn then RunExit.blocked else RunExit.terminated⟩ := rfl

theorem runLoop_stop (env : Env) (conn : Bool) (st : Engine) (q : List TTSCommand) :
    runLoop env conn st (TTSCommand.stop :: q) =
      runLoop env conn ⟨st.voiceStates, st.currentVoice, false⟩ q := rfl

theorem runLoop_changeVoice (env : Env) (conn : Bool) (st : Engine) (v : String)
    (q : List TTSCommand) :
    runLoop env conn st (TTSCommand.changeVoice v :: q) =
      runLoop env conn (applyChangeVoice st v) q := rfl

theorem runLoop_shutdown (env : Env) (conn : Bool) (st : Engine) (q : List TTSCommand) :
    runLoop env conn st (TTSCommand.shutdown :: q) = ⟨st, [], RunExit.terminated⟩ := rfl

theorem runLoop_speak (env : Env) (conn : Bool) (st : Engine) (t : String)
    (q : List TTSCommand) :
    runLoop env conn st (TTSCommand.speak t :: q) =
      ⟨(runLoop env conn (speakFn env st t q conn).st
          (q.drop (speakFn env st t q conn).consumed)).st,
        (speakFn env st t q conn).trace ++
          (runLoop env conn (speakFn env st t q conn).st
            (q.drop (speakFn env st t q conn).consumed)).trace,
        (runLoop env conn (speakFn env st t q conn).st
          (q.drop (speakFn env st t q conn).consumed)).exit⟩ := by
  unfold runLoop
  simp only [List.length_cons, runLoopF]
  rw [runLoopF_fuel env conn q.length (q.drop (speakFn env st t q conn).consumed).length
    (speakFn env st t q conn).st (q.drop (speakFn env st t q conn).consumed)
    (List.length_drop _ _ ▸ Nat.sub_le _ _) (le_refl _)]



theorem speakFn_activeAfter (env : Env) (st : Engine) (t : String)
    (q : List TTSCommand) (conn : Bool) :
    List.foldl actStep false (speakFn env st t q conn).trace = false := by
  have h := (speakFn_session env st t q conn).2
  simpa [activeAfter] using h

theorem runLoopF_session (env : Env) (conn : Bool) (n : Nat) (st : Engine)
    (q : List TTSCommand) :
    closedFrom false (runLoopF env conn n st q).trace = true := by
  induction n, st, q using runLoopF.induct env conn <;>
    simp_all [runLoopF, closedFrom, closedFrom_append, speakFn_session,
      speakFn_activeAfter, activeAfter]

theorem runLoopF_noVoiceErr (env : Env) (conn : Bool) (v : String) :
    ∀ (n : Nat) (st : Engine) (q : List TTSCommand),
      st.currentVoice ∈ st.voiceStates →
      Action.event (TTSEvent.error (ErrMsg.voiceNotLoaded v)) ∉ (runLoopF env conn n st q).trace := by
  intro n st q
  induction n, st, q using runLoopF.induct env conn with
  | case1 st => simp [runLoopF]
  | case2 st c q => simp [runLoopF]
  | case3 n st t q o ih =>
    intro h
    simp only [runLoopF, List.mem_append]
    intro hmem
    rcases hmem with hmem | hmem
    · exact speakFn_noVoiceErr env st t q conn h v hmem
    · exact ih (by
        have h1 := speakFn_mem env st t q conn h
        have h2 := speakFn_voiceStates env st t q conn
        simp_all) hmem
  | case4 n st q ih => intro h; simp only [runLoopF]; exact ih (by simpa using h)
  | case5 n st v' q ih =>
    intro h
    simp only [runLoopF]
    exact ih (by
      have h1 := applyChangeVoice_mem st v' h
      have h2 := applyChangeVoice_voiceStates st v'
      simp_all)
  | case6 n st q => simp [runLoopF]



/-- Claim C6.  If a Speak command is processed while no voice profile
is loaded for the selected voice, speak emits exactly one Error event
(the voice-not-loaded message), emits no StartedSpeaking and no
FinishedSpeaking, creates no sink, consumes no further commands, and
leaves the engine state unchanged; the run loop carries on processing
the remaining queue from that same idle state. -/
theorem voiceUnavailableError (env : Env) (st : Engine) (t : String)
    (q : List TTSCommand) (conn : Bool) (h : st.currentVoice ∉ st.voiceStates) :
    speakFn env st t q conn =
      ⟨st, 0, [Action.event (TTSEvent.error (ErrMsg.voiceNotLoaded st.currentVoice))]⟩ ∧
    runLoop env conn st (TTSCommand.speak t :: q) =
      ⟨(runLoop env conn st q).st,
        Action.event (TTSEvent.error (ErrMsg.voiceNotLoaded st.currentVoice))
          :: (runLoop env conn st q).trace,
        (runLoop env conn st q).exit⟩ := by
  have h1 : speakFn env st t q conn =
      ⟨st, 0, [Action.event (TTSEvent.error (ErrMsg.voiceNotLoaded st.currentVoice))]⟩ := by
    unfold speakFn; rw [if_neg h]
  refine ⟨h1, ?_⟩
  rw [runLoop_speak, h1]
  simp

/-- Claim C8.  For any identifier not present in the voice store,
ChangeVoice is a logged no-op in every engine state: the run-loop
handler leaves the whole run unchanged (identical trace, final state
and exit as if the command had not been sent), and the mid-utterance
handler leaves the selected voice and the remaining chunk-loop trace
and exit unchanged; no Error event is emitted by either. -/
theorem unknownChangeVoiceNoop (v : String) :
    (∀ (env : Env) (conn : Bool) (st : Engine) (q : List TTSCommand),
        v ∉ st.voiceStates →
        runLoop env conn st (TTSCommand.changeVoice v :: q) = runLoop env conn st q) ∧
    (∀ (st : Engine) (ck : ChunkResult) (cs : List ChunkResult),
        v ∉ st.voiceStates →
        (speakLoop true st [TTSCommand.changeVoice v] (ck :: cs)).st =
            (speakLoop true st [] (ck :: cs)).st ∧
          (speakLoop true st [TTSCommand.changeVoice v] (ck :: cs)).trace =
            (speakLoop true st [] (ck :: cs)).trace ∧
          (speakLoop true st [TTSCommand.changeVoice v] (ck :: cs)).exit =
            (speakLoop true st [] (ck :: cs)).exit) := by
  constructor
  · intro env conn st q h
    rw [runLoop_changeVoice]
    have : applyChangeVoice st v = st := by unfold applyChangeVoice; rw [if_neg h]
    rw [this]
  · intro st ck cs h
    have hcv : applyChangeVoice st v = st := by unfold applyChangeVoice; rw [if_neg h]
    cases ck <;> simp [speakLoop, hcv]

/-- Claim C3.  For an utterance in progress (is_speaking set) with at
least one chunk remaining, a pending Stop is acted on at the very next
chunk boundary: the sink is stopped and its queued audio discarded, the
pulled chunk is dropped, no further chunk is pulled, is_speaking becomes
false, and FinishedSpeaking is emitted — all within one
chunk-production interval of the Stop being next on the channel. -/
theorem stopCancelsUtterance (conn : Bool) (st : Engine) (q : List TTSCommand)
    (ck : ChunkResult) (cs : List ChunkResult) (h : st.isSpeaking = true) :
    speakResume conn st (TTSCommand.stop :: q) (ck :: cs) =
      ⟨⟨st.voiceStates, st.currentVoice, false⟩, 1,
        [Action.chunkPull, Action.sinkStop, Action.sinkSleepUntilEnd,
         Action.event TTSEvent.finishedSpeaking]⟩ := by
  unfold speakResume
  cases ck <;> simp [speakLoop, h]



/-- Claim C1, amended.  If a Shutdown command is pending when an active
utterance reaches a chunk boundary, the engine stops the sink, clears
is_speaking, emits no FinishedSpeaking, discards the chunk pulled at
that boundary, pulls no further chunk, and the speak call returns early.
But the Shutdown is consumed inside the utterance, so the run loop does
not return: it resumes receiving and processes the commands queued
behind the Shutdown (it terminates only on a later Shutdown or on
channel disconnection). -/
theorem midUtteranceShutdown_amended (env : Env) (eng : Engine) (t : String)
    (more : List TTSCommand) (ck : ChunkResult) (cs : List ChunkResult)
    (hv : eng.currentVoice ∈ eng.voiceStates) (hs : env.sinkOk = true)
    (hg : env.gen t eng.currentVoice = ck :: cs) :
    speakFn env eng t (TTSCommand.shutdown :: more) true =
      ⟨⟨eng.voiceStates, eng.currentVoice, false⟩, 1,
        [Action.sinkCreate, Action.event TTSEvent.startedSpeaking,
         Action.chunkPull, Action.sinkStop]⟩ ∧
    runLoop env true eng (TTSCommand.speak t :: TTSCommand.shutdown :: more) =
      ⟨(runLoop env true ⟨eng.voiceStates, eng.currentVoice, false⟩ more).st,
        [Action.sinkCreate, Action.event TTSEvent.startedSpeaking,
         Action.chunkPull, Action.sinkStop] ++
          (runLoop env true ⟨eng.voiceStates, eng.currentVoice, false⟩ more).trace,
        (runLoop env true ⟨eng.voiceStates, eng.currentVoice, false⟩ more).exit⟩ := by
  have h1 : speakFn env eng t (TTSCommand.shutdown :: more) true =
      ⟨⟨eng.voiceStates, eng.currentVoice, false⟩, 1,
        [Action.sinkCreate, Action.event TTSEvent.startedSpeaking,
         Action.chunkPull, Action.sinkStop]⟩ := by
    unfold speakFn
    rw [if_pos hv, hs, if_pos rfl, hg]
    cases ck <;> simp [speakResume, speakLoop]
  refine ⟨h1, ?_⟩
  rw [runLoop_speak, h1]
  simp

/-- Claim C1, counterexample to the claim as stated.  With five chunks
available and pending commands ChangeVoice alba, Shutdown,
ChangeVoice jean behind a Speak, the Shutdown is consumed mid-utterance,
yet: a second chunk is still pulled after the Shutdown became pending
(pullCount = 2, refuting that no further chunks are requested), the run
loop does not return (exit is blocked, sitting in recv), and the
ChangeVoice queued after the Shutdown is still applied (final selected
voice is jean, refuting that the engine stops accepting commands). -/
theorem midUtteranceShutdown_counterexample :
    (runLoop ⟨fun _ _ => [ChunkResult.ok [1], ChunkResult.ok [2], ChunkResult.ok [3],
          ChunkResult.ok [4], ChunkResult.ok [5]], true⟩ true
        ⟨["alba", "jean"], "alba", false⟩
        [TTSCommand.speak "hi", TTSCommand.changeVoice "alba", TTSCommand.shutdown,
         TTSCommand.changeVoice "jean"]).exit = RunExit.blocked ∧
    (runLoop ⟨fun _ _ => [ChunkResult.ok [1], ChunkResult.ok [2], ChunkResult.ok [3],
          ChunkResult.ok [4], ChunkResult.ok [5]], true⟩ true
        ⟨["alba", "jean"], "alba", false⟩
        [TTSCommand.speak "hi", TTSCommand.changeVoice "alba", TTSCommand.shutdown,
         TTSCommand.changeVoice "jean"]).st.currentVoice = "jean" ∧
    pullCount (runLoop ⟨fun _ _ => [ChunkResult.ok [1], ChunkResult.ok [2], ChunkResult.ok [3],
          ChunkResult.ok [4], ChunkResult.ok [5]], true⟩ true
        ⟨["alba", "jean"], "alba", false⟩
        [TTSCommand.speak "hi", TTSCommand.changeVoice "alba", TTSCommand.shutdown,
         TTSCommand.changeVoice "jean"]).trace = 2 ∧
    Action.sinkStop ∈ (runLoop ⟨fun _ _ => [ChunkResult.ok [1], ChunkResult.ok [2],
          ChunkResult.ok [3], ChunkResult.ok [4], ChunkResult.ok [5]], true⟩ true
        ⟨["alba", "jean"], "alba", false⟩
        [TTSCommand.speak "hi", TTSCommand.changeVoice "alba", TTSCommand.shutdown,
         TTSCommand.changeVoice "jean"]).trace ∧
    Action.event TTSEvent.finishedSpeaking ∉
      (runLoop ⟨fun _ _ => [ChunkResult.ok [1], ChunkResult.ok [2], ChunkResult.ok [3],
            ChunkResult.ok [4], ChunkResult.ok [5]], true⟩ true
          ⟨["alba", "jean"], "alba", false⟩
          [TTSCommand.speak "hi", TTSCommand.changeVoice "alba", TTSCommand.shutdown,
           TTSCommand.changeVoice "jean"]).trace := by
  decide

theorem speakResume_cancel_sinkStop (conn : Bool) (st : Engine) (q : List TTSCommand)
    (cs : List ChunkResult)
    (h : (speakLoop conn st q cs).exit = LoopExit.stopped ∨
         (speakLoop conn st q cs).exit = LoopExit.shutdownEarly ∨
         (speakLoop conn st q cs).exit = LoopExit.disconnectedEarly) :
    Action.sinkStop ∈ (speakResume conn st q cs).trace := by
  have hmem := speakLoop_cancel_sinkStop conn st q cs h
  unfold speakResume
  cases h3 : (speakLoop conn st q cs).exit <;> simp_all

theorem speakResume_normal_trace (conn : Bool) (st : Engine) (q : List TTSCommand)
    (cs : List ChunkResult)
    (h1 : (speakLoop conn st q cs).exit ≠ LoopExit.shutdownEarly)
    (h2 : (speakLoop conn st q cs).exit ≠ LoopExit.disconnectedEarly) :
    (speakResume conn st q cs).trace =
      (speakLoop conn st q cs).trace ++
        (if (speakLoop conn st q cs).st.isSpeaking then [Action.sinkSleepUntilEnd] else []) ++
        [Action.event TTSEvent.finishedSpeaking] := by
  unfold speakResume
  cases h3 : (speakLoop conn st q cs).exit <;> simp_all

/-- Claim C5.  For every speak call whose trace emits FinishedSpeaking
and contains no sink stop (the chunk sequence ended without being
cancelled), the trace ends with the blocking sink drain immediately
followed by FinishedSpeaking: the finished event is never emitted
before the sink drain completes. -/
theorem finishAfterDrain (env : Env) (st : Engine) (t : String) (q : List TTSCommand)
    (conn : Bool)
    (hstop : Action.sinkStop ∉ (speakFn env st t q conn).trace)
    (hfin : Action.event TTSEvent.finishedSpeaking ∈ (speakFn env st t q conn).trace) :
    ∃ pre, (speakFn env st t q conn).trace =
      pre ++ [Action.sinkSleepUntilEnd, Action.event TTSEvent.finishedSpeaking] := by
  by_cases hv : st.currentVoice ∈ st.voiceStates
  · by_cases hsnk : env.sinkOk = true
    · unfold speakFn at hstop ⊢
      rw [if_pos hv, hsnk, if_pos rfl] at hstop ⊢
      simp only [List.mem_cons, not_or] at hstop
      obtain ⟨-, -, hstop'⟩ := hstop
      have h1 : (speakLoop conn ⟨st.voiceStates, st.currentVoice, true⟩ q
          (env.gen t st.currentVoice)).exit ≠ LoopExit.shutdownEarly := by
        intro hc
        exact hstop' (speakResume_cancel_sinkStop conn _ q _ (Or.inr (Or.inl hc)))
      have h2 : (speakLoop conn ⟨st.voiceStates, st.currentVoice, true⟩ q
          (env.gen t st.currentVoice)).exit ≠ LoopExit.disconnectedEarly := by
        intro hc
        exact hstop' (speakResume_cancel_sinkStop conn _ q _ (Or.inr (Or.inr hc)))
      have hsp : (speakLoop conn ⟨st.voiceStates, st.currentVoice, true⟩ q
          (env.gen t st.currentVoice)).st.isSpeaking = true := by
        have := speakLoop_isSpeaking conn ⟨st.voiceStates, st.currentVoice, true⟩ q
          (env.gen t st.currentVoice) h1 h2
        simpa using this
      have htr := speakResume_normal_trace conn ⟨st.voiceStates, st.currentVoice, true⟩ q
        (env.gen t st.currentVoice) h1 h2
      refine ⟨Action.sinkCreate :: Action.event TTSEvent.startedSpeaking ::
        (speakLoop conn ⟨st.voiceStates, st.currentVoice, true⟩ q
          (env.gen t st.currentVoice)).trace, ?_⟩
      simp [htr, hsp]
    · exfalso
      unfold speakFn at hfin
      rw [if_pos hv, if_neg hsnk] at hfin
      simp at hfin
  · exfalso
    unfold speakFn at hfin
    rw [if_neg hv] at hfin
    simp at hfin



theorem pullCount_appendActions (s : List Int) : pullCount (appendActions s) = 0 := by
  unfold appendActions pullCount
  split <;> simp [List.countP_cons, isPull]

/-- Claim C4.  At most one utterance session is active at a time.  A
Speak command consumed mid-utterance is ignored entirely: a pending
queue consisting only of Speak commands produces exactly the same
state, trace and loop exit as an empty queue (no second session, no
audio, no event for the ignored requests).  Globally, in every run of
the command loop the trace never creates a sink while a previously
created sink is still active (not yet stopped or finished). -/
theorem atMostOneSession :
    (∀ (st : Engine) (q : List TTSCommand) (cs : List ChunkResult),
        (∀ c ∈ q, isSpeakCmd c = true) →
        (speakLoop true st q cs).st = (speakLoop true st [] cs).st ∧
        (speakLoop true st q cs).trace = (speakLoop true st [] cs).trace ∧
        (speakLoop true st q cs).exit = (speakLoop true st [] cs).exit) ∧
    (∀ (env : Env) (conn : Bool) (st : Engine) (q : List TTSCommand),
        closedFrom false (runLoop env conn st q).trace = true) := by
  constructor
  · intro st q cs
    induction cs generalizing st q with
    | nil => intro _; simp [speakLoop]
    | cons ck cs ih =>
      intro h
      cases q with
      | nil => exact ⟨rfl, rfl, rfl⟩
      | cons c q' =>
        have hc := h c (List.mem_cons_self _ _)
        cases c with
        | speak t =>
          cases ck with
          | ok samples =>
            have h2 := ih st q' (fun x hx => h x (List.mem_cons_of_mem _ hx))
            simp [speakLoop, h2.1, h2.2.1, h2.2.2]
          | err e => simp [speakLoop]
        | stop => simp [isSpeakCmd] at hc
        | changeVoice v => simp [isSpeakCmd] at hc
        | shutdown => simp [isSpeakCmd] at hc
  · intro env conn st q
    exact runLoopF_session env conn q.length st q

/-- Claim C2, amended.  At each chunk boundary the engine polls the
command channel exactly once, non-blockingly, consuming at most one
pending command, in enqueue order; it does not drain the whole batch.
A Stop queued behind k non-cancelling commands therefore takes effect k
chunk boundaries later (when that many chunks remain): exactly k + 1
chunks are pulled, the sink is stopped there, and the commands queued
behind the Stop are left on the channel for the run loop. -/
theorem chunkBoundaryDrain_amended :
    ∀ (front : List TTSCommand) (conn : Bool) (st : Engine) (q : List TTSCommand)
      (csPre : List ChunkResult) (ck : ChunkResult) (cs' : List ChunkResult),
      (∀ c ∈ front, isCancelCmd c = false) →
      (∀ r ∈ csPre, chunkOk r = true) →
      front.length = csPre.length →
      (speakLoop conn st (front ++ TTSCommand.stop :: q) (csPre ++ ck :: cs')).exit =
          LoopExit.stopped ∧
      (speakLoop conn st (front ++ TTSCommand.stop :: q) (csPre ++ ck :: cs')).consumed =
          front.length + 1 ∧
      pullCount (speakLoop conn st (front ++ TTSCommand.stop :: q)
          (csPre ++ ck :: cs')).trace = front.length + 1 ∧
      Action.sinkStop ∈ (speakLoop conn st (front ++ TTSCommand.stop :: q)
          (csPre ++ ck :: cs')).trace ∧
      (front ++ TTSCommand.stop :: q).drop
          (speakLoop conn st (front ++ TTSCommand.stop :: q)
            (csPre ++ ck :: cs')).consumed = q := by
  intro front
  induction front with
  | nil =>
    intro conn st q csPre ck cs' _ hok hlen
    have hnil : csPre = [] := List.length_eq_zero.mp hlen.symm
    subst hnil
    exact ⟨rfl, rfl, rfl, by simp [speakLoop], rfl⟩
  | cons c front' ih =>
    intro conn st q csPre ck cs' hcan hok hlen
    cases csPre with
    | nil => simp at hlen
    | cons r csPre' =>
      have hr := hok r (List.mem_cons_self _ _)
      have hc := hcan c (List.mem_cons_self _ _)
      have hlen' : front'.length = csPre'.length := by simpa using hlen
      cases r with
      | err e => simp [chunkOk] at hr
      | ok samples =>
        cases c with
        | stop => simp [isCancelCmd] at hc
        | shutdown => simp [isCancelCmd] at hc
        | speak t =>
          obtain ⟨IH1, IH2, IH3, IH4, IH5⟩ := ih conn st q csPre' ck cs'
            (fun x hx => hcan x (List.mem_cons_of_mem _ hx))
            (fun x hx => hok x (List.mem_cons_of_mem _ hx)) hlen'
          refine ⟨by simp [speakLoop, IH1], by simp [speakLoop, IH2],
            ?_, ?_, ?_⟩
          · simp [speakLoop, pullCount, List.countP_append, List.countP_cons, isPull]
            simp only [pullCount] at IH3
            have hpa := pullCount_appendActions samples
            simp only [pullCount] at hpa
            omega
          · simp only [List.cons_append, speakLoop]
            simp only [List.mem_cons, List.mem_append]
            exact Or.inr (Or.inr IH4)
          · simp only [List.cons_append, speakLoop, List.drop_succ_cons]
            exact IH5
        | changeVoice v =>
          obtain ⟨IH1, IH2, IH3, IH4, IH5⟩ := ih conn (applyChangeVoice st v) q csPre' ck cs'
            (fun x hx => hcan x (List.mem_cons_of_mem _ hx))
            (fun x hx => hok x (List.mem_cons_of_mem _ hx)) hlen'
          refine ⟨by simp [speakLoop, IH1], by simp [speakLoop, IH2],
            ?_, ?_, ?_⟩
          · simp [speakLoop, pullCount, List.countP_append, List.countP_cons, isPull]
            simp only [pullCount] at IH3
            have hpa := pullCount_appendActions samples
            simp only [pullCount] at hpa
            omega
          · simp only [List.cons_append, speakLoop]
            simp only [List.mem_cons, List.mem_append]
            exact Or.inr (Or.inr IH4)
          · simp only [List.cons_append, speakLoop, List.drop_succ_cons]
            exact IH5

/-- Claim C2, counterexample to the claim as stated.  With ChangeVoice
and Stop both pending at the first chunk boundary of a three-chunk
utterance, the engine consumes only the ChangeVoice at that boundary and
appends the first chunk to the sink, pulling a second chunk before it
acts on the Stop: the pending Stop did not cancel the utterance at the
boundary where it was already queued, so the batch is not drained and
Stop does not take precedence within it. -/
theorem chunkBoundaryDrain_counterexample :
    Action.sinkAppend [1] ∈ (speakLoop true ⟨["alba"], "alba", true⟩
      [TTSCommand.changeVoice "alba", TTSCommand.stop]
      [ChunkResult.ok [1], ChunkResult.ok [2], ChunkResult.ok [3]]).trace ∧
    pullCount (speakLoop true ⟨["alba"], "alba", true⟩
      [TTSCommand.changeVoice "alba", TTSCommand.stop]
      [ChunkResult.ok [1], ChunkResult.ok [2], ChunkResult.ok [3]]).trace = 2 ∧
    (speakLoop true ⟨["alba"], "alba", true⟩
      [TTSCommand.changeVoice "alba", TTSCommand.stop]
      [ChunkResult.ok [1], ChunkResult.ok [2], ChunkResult.ok [3]]).exit =
      LoopExit.stopped := by
  decide



/-- Claim C7.  After successful construction the selected voice is a
key of the loaded voice-state map (the configured voice when loaded,
otherwise some loaded voice), and — since both ChangeVoice handlers
only update the selection to loaded keys — no run of the command loop,
over any environment and command sequence, ever emits the
voice-not-loaded Error: that branch at the start of speak is
unreachable through the run loop. -/
theorem selectedVoiceAlwaysLoaded (ienv : InitEnv) (iv : String) (st : Engine)
    (h : engineNew ienv iv = Except.ok st) :
    st.currentVoice ∈ st.voiceStates ∧
    ∀ (env : Env) (conn : Bool) (q : List TTSCommand) (v : String),
      Action.event (TTSEvent.error (ErrMsg.voiceNotLoaded v)) ∉ (runLoop env conn st q).trace := by
  have hmem : st.currentVoice ∈ st.voiceStates := by
    unfold engineNew at h
    split_ifs at h with g1 g2 g3 g4 g5 g6 g7
    · simp only [Except.ok.injEq] at h
      subst h
      simpa using g7
    · simp only [Except.ok.injEq] at h
      subst h
      simpa using List.head!_mem_self g5
  refine ⟨hmem, ?_⟩
  intro env conn q v
  exact runLoopF_noVoiceErr env conn v q.length st q hmem

theorem length_le_utf8Len (s : List Char) : s.length ≤ utf8Len s := by
  induction s with
  | nil => simp [utf8Len]
  | cons c t ih =>
    have hp := Char.utf8Size_pos c
    simp only [utf8Len, List.map_cons, List.sum_cons, List.length_cons]
    simp only [utf8Len] at ih
    omega

/-- Claim C9.  On a watcher tick (monitoring enabled, not speaking)
whose trimmed clipboard content is longer than 10000 characters, no
Speak command is produced and the content is recorded untruncated as
the new last-observed value, so a subsequent tick reading the identical
content is also suppressed.  (Content longer than 10000 characters has
more than 10000 UTF-8 bytes, which is what the guard in the source
compares.) -/
theorem oversizedClipboardDropped (last raw : List Char)
    (h : 10000 < (rustTrim raw).length) :
    (monitorTick last true false (some raw)).2 = none ∧
    (monitorTick last true false (some raw)).1 = rustTrim raw ∧
    (monitorTick (rustTrim raw) true false (some raw)).2 = none ∧
    (monitorTick (rustTrim raw) true false (some raw)).1 = rustTrim raw := by
  have hby : 10000 < utf8Len (rustTrim raw) :=
    lt_of_lt_of_le h (length_le_utf8Len _)
  have hne : rustTrim raw ≠ [] := by
    intro hc
    rw [hc] at h
    simp at h
  refine ⟨?_, ?_, ?_, ?_⟩
  · by_cases heq : rustTrim raw = last <;> simp [monitorTick, heq, hne, hby]
  · by_cases heq : rustTrim raw = last <;> simp [monitorTick, heq, hne, hby]
  · simp [monitorTick]
  · simp [monitorTick]

/-- Claim C10.  Provided the initialization steps before and after the
voice-store loop succeed (models directory, weights, tokenizer, model
load, audio device), construction succeeds exactly when at least one
voice profile loaded, and the resulting store contains precisely the
identifiers of VOICES whose profile loaded — an individual load failure
is non-fatal and merely omits that identifier, for every pattern of
failing voices. -/
theorem voiceStoreFaultTolerance (ienv : InitEnv) (iv : String)
    (h1 : ienv.modelsDirExists = true) (h2 : ienv.weightsExist = true)
    (h3 : ienv.tokenizerExists = true) (h4 : ienv.modelLoadOk = true)
    (h5 : ienv.audioOk = true) :
    ((∃ st, engineNew ienv iv = Except.ok st) ↔ loadVoiceStates ienv ≠ []) ∧
    ∀ st, engineNew ienv iv = Except.ok st →
      ∀ v, v ∈ st.voiceStates ↔ v ∈ VOICES ∧ ienv.voiceLoad v = VoiceLoadResult.loaded := by
  constructor
  · constructor
    · rintro ⟨st, hst⟩ hvs
      simp [engineNew, h1, h2, h3, h4, h5, hvs] at hst
    · intro hvs
      exact ⟨⟨loadVoiceStates ienv,
        if iv ∈ loadVoiceStates ienv then iv else (loadVoiceStates ienv).head!, false⟩,
        by simp [engineNew, h1, h2, h3, h4, h5, hvs]⟩
  · intro st hst v
    have hvs : st.voiceStates = loadVoiceStates ienv := by
      unfold engineNew at hst
      split_ifs at hst with g1 g2 g3 g4 g5 g6 g7
      · simp only [Except.ok.injEq] at hst
        subst hst
        rfl
      · simp only [Except.ok.injEq] at hst
        subst hst
        rfl
    rw [hvs]
    simp [loadVoiceStates, List.mem_filter]



theorem dropWhile_replicate_of_neg {p : Char → Bool} {a : Char} (h : p a = false) :
    ∀ n, List.dropWhile p (List.replicate n a) = List.replicate n a := by
  intro n
  cases n with
  | zero => rfl
  | succ n => simp [List.replicate_succ, List.dropWhile_cons, h]

theorem rustTrim_replicate_a (n : Nat) :
    rustTrim (List.replicate n 'a') = List.replicate n 'a' := by
  unfold rustTrim
  rw [dropWhile_replicate_of_neg (by decide) n, List.reverse_replicate,
    dropWhile_replicate_of_neg (by decide) n, List.reverse_replicate]

/-- Witness for claim C1 at a concrete input. -/
theorem midUtteranceShutdown_witness :
    (⟨["alba"], "alba", false⟩ : Engine).currentVoice ∈
        (⟨["alba"], "alba", false⟩ : Engine).voiceStates ∧
    (Env.mk (fun _ _ => [ChunkResult.ok [1], ChunkResult.ok [2]]) true).sinkOk = true ∧
    (Env.mk (fun _ _ => [ChunkResult.ok [1], ChunkResult.ok [2]]) true).gen "hi"
        (⟨["alba"], "alba", false⟩ : Engine).currentVoice =
      ChunkResult.ok [1] :: [ChunkResult.ok [2]] ∧
    (speakFn (Env.mk (fun _ _ => [ChunkResult.ok [1], ChunkResult.ok [2]]) true)
        ⟨["alba"], "alba", false⟩ "hi" (TTSCommand.shutdown :: []) true =
      ⟨⟨["alba"], "alba", false⟩, 1,
        [Action.sinkCreate, Action.event TTSEvent.startedSpeaking,
         Action.chunkPull, Action.sinkStop]⟩ ∧
    runLoop (Env.mk (fun _ _ => [ChunkResult.ok [1], ChunkResult.ok [2]]) true) true
        ⟨["alba"], "alba", false⟩ (TTSCommand.speak "hi" :: TTSCommand.shutdown :: []) =
      ⟨(runLoop (Env.mk (fun _ _ => [ChunkResult.ok [1], ChunkResult.ok [2]]) true) true
          ⟨["alba"], "alba", false⟩ []).st,
        [Action.sinkCreate, Action.event TTSEvent.startedSpeaking,
         Action.chunkPull, Action.sinkStop] ++
          (runLoop (Env.mk (fun _ _ => [ChunkResult.ok [1], ChunkResult.ok [2]]) true) true
            ⟨["alba"], "alba", false⟩ []).trace,
        (runLoop (Env.mk (fun _ _ => [ChunkResult.ok [1], ChunkResult.ok [2]]) true) true
          ⟨["alba"], "alba", false⟩ []).exit⟩) :=
  ⟨by decide, rfl, rfl,
    midUtteranceShutdown_amended (Env.mk (fun _ _ => [ChunkResult.ok [1], ChunkResult.ok [2]]) true)
      ⟨["alba"], "alba", false⟩ "hi" [] (ChunkResult.ok [1]) [ChunkResult.ok [2]]
      (by decide) rfl rfl⟩

/-- Witness for claim C2 at a concrete input. -/
theorem chunkBoundaryDrain_witness :
    (∀ c ∈ [TTSCommand.speak "x"], isCancelCmd c = false) ∧
    (∀ r ∈ [ChunkResult.ok ([1] : List Int)], chunkOk r = true) ∧
    ([TTSCommand.speak "x"].length = [ChunkResult.ok ([1] : List Int)].length) ∧
    ((speakLoop true ⟨["alba"], "alba", true⟩
        ([TTSCommand.speak "x"] ++ TTSCommand.stop :: [])
        ([ChunkResult.ok [1]] ++ ChunkResult.ok [2] :: [])).exit = LoopExit.stopped ∧
      (speakLoop true ⟨["alba"], "alba", true⟩
        ([TTSCommand.speak "x"] ++ TTSCommand.stop :: [])
        ([ChunkResult.ok [1]] ++ ChunkResult.ok [2] :: [])).consumed =
        [TTSCommand.speak "x"].length + 1 ∧
      pullCount (speakLoop true ⟨["alba"], "alba", true⟩
        ([TTSCommand.speak "x"] ++ TTSCommand.stop :: [])
        ([ChunkResult.ok [1]] ++ ChunkResult.ok [2] :: [])).trace =
        [TTSCommand.speak "x"].length + 1 ∧
      Action.sinkStop ∈ (speakLoop true ⟨["alba"], "alba", true⟩
        ([TTSCommand.speak "x"] ++ TTSCommand.stop :: [])
        ([ChunkResult.ok [1]] ++ ChunkResult.ok [2] :: [])).trace ∧
      ([TTSCommand.speak "x"] ++ TTSCommand.stop :: []).drop
        (speakLoop true ⟨["alba"], "alba", true⟩
          ([TTSCommand.speak "x"] ++ TTSCommand.stop :: [])
          ([ChunkResult.ok [1]] ++ ChunkResult.ok [2] :: [])).consumed = []) :=
  ⟨by decide, by decide, by decide,
    chunkBoundaryDrain_amended [TTSCommand.speak "x"] true ⟨["alba"], "alba", true⟩ []
      [ChunkResult.ok [1]] (ChunkResult.ok [2]) [] (by decide) (by decide) (by decide)⟩

/-- Witness for claim C3 at a concrete input. -/
theorem stopCancelsUtterance_witness :
    (⟨["alba"], "alba", true⟩ : Engine).isSpeaking = true ∧
    speakResume true ⟨["alba"], "alba", true⟩ (TTSCommand.stop :: [])
        (ChunkResult.ok [1] :: [ChunkResult.ok [2]]) =
      ⟨⟨["alba"], "alba", false⟩, 1,
        [Action.chunkPull, Action.sinkStop, Action.sinkSleepUntilEnd,
         Action.event TTSEvent.finishedSpeaking]⟩ :=
  ⟨rfl, stopCancelsUtterance true ⟨["alba"], "alba", true⟩ [] (ChunkResult.ok [1])
    [ChunkResult.ok [2]] rfl⟩

/-- Witness for claim C4 at a concrete input. -/
theorem atMostOneSession_witness :
    (∀ c ∈ [TTSCommand.speak "x"], isSpeakCmd c = true) ∧
    ((speakLoop true ⟨["alba"], "alba", true⟩ [TTSCommand.speak "x"]
        [ChunkResult.ok [1]]).st =
      (speakLoop true ⟨["alba"], "alba", true⟩ [] [ChunkResult.ok [1]]).st ∧
      (speakLoop true ⟨["alba"], "alba", true⟩ [TTSCommand.speak "x"]
        [ChunkResult.ok [1]]).trace =
      (speakLoop true ⟨["alba"], "alba", true⟩ [] [ChunkResult.ok [1]]).trace ∧
      (speakLoop true ⟨["alba"], "alba", true⟩ [TTSCommand.speak "x"]
        [ChunkResult.ok [1]]).exit =
      (speakLoop true ⟨["alba"], "alba", true⟩ [] [ChunkResult.ok [1]]).exit) ∧
    closedFrom false (runLoop (Env.mk (fun _ _ => [ChunkResult.ok [1]]) true) true
      ⟨["alba"], "alba", false⟩ [TTSCommand.speak "hi"]).trace = true :=
  ⟨by decide,
    atMostOneSession.1 ⟨["alba"], "alba", true⟩ [TTSCommand.speak "x"]
      [ChunkResult.ok [1]] (by decide),
    atMostOneSession.2 (Env.mk (fun _ _ => [ChunkResult.ok [1]]) true) true
      ⟨["alba"], "alba", false⟩ [TTSCommand.speak "hi"]⟩

/-- Witness for claim C5 at a concrete input. -/
theorem finishAfterDrain_witness :
    Action.sinkStop ∉ (speakFn (Env.mk (fun _ _ => [ChunkResult.ok [1]]) true)
        ⟨["alba"], "alba", false⟩ "hi" [] true).trace ∧
    Action.event TTSEvent.finishedSpeaking ∈
      (speakFn (Env.mk (fun _ _ => [ChunkResult.ok [1]]) true)
        ⟨["alba"], "alba", false⟩ "hi" [] true).trace ∧
    ∃ pre, (speakFn (Env.mk (fun _ _ => [ChunkResult.ok [1]]) true)
        ⟨["alba"], "alba", false⟩ "hi" [] true).trace =
      pre ++ [Action.sinkSleepUntilEnd, Action.event TTSEvent.finishedSpeaking] :=
  ⟨by decide, by decide,
    finishAfterDrain (Env.mk (fun _ _ => [ChunkResult.ok [1]]) true)
      ⟨["alba"], "alba", false⟩ "hi" [] true (by decide) (by decide)⟩

/-- Witness for claim C6 at a concrete input. -/
theorem voiceUnavailableError_witness :
    (⟨["alba"], "ghost", false⟩ : Engine).currentVoice ∉
        (⟨["alba"], "ghost", false⟩ : Engine).voiceStates ∧
    (speakFn (Env.mk (fun _ _ => []) true) ⟨["alba"], "ghost", false⟩ "hi" [] true =
      ⟨⟨["alba"], "ghost", false⟩, 0,
        [Action.event (TTSEvent.error (ErrMsg.voiceNotLoaded
          (⟨["alba"], "ghost", false⟩ : Engine).currentVoice))]⟩ ∧
    runLoop (Env.mk (fun _ _ => []) true) true ⟨["alba"], "ghost", false⟩
        (TTSCommand.speak "hi" :: []) =
      ⟨(runLoop (Env.mk (fun _ _ => []) true) true ⟨["alba"], "ghost", false⟩ []).st,
        Action.event (TTSEvent.error (ErrMsg.voiceNotLoaded
          (⟨["alba"], "ghost", false⟩ : Engine).currentVoice))
          :: (runLoop (Env.mk (fun _ _ => []) true) true ⟨["alba"], "ghost", false⟩ []).trace,
        (runLoop (Env.mk (fun _ _ => []) true) true ⟨["alba"], "ghost", false⟩ []).exit⟩) :=
  ⟨by decide,
    voiceUnavailableError (Env.mk (fun _ _ => []) true) ⟨["alba"], "ghost", false⟩
      "hi" [] true (by decide)⟩



/-- Witness for claim C7 at a concrete input. -/
theorem selectedVoiceAlwaysLoaded_witness :
    engineNew ⟨true, true, true, true, fun _ => VoiceLoadResult.loaded, true⟩ "alba" =
      Except.ok ⟨VOICES, "alba", false⟩ ∧
    (⟨VOICES, "alba", false⟩ : Engine).currentVoice ∈
      (⟨VOICES, "alba", false⟩ : Engine).voiceStates ∧
    Action.event (TTSEvent.error (ErrMsg.voiceNotLoaded "ghost")) ∉
      (runLoop (Env.mk (fun _ _ => [ChunkResult.ok [1]]) true) true
        ⟨VOICES, "alba", false⟩ [TTSCommand.speak "hi"]).trace :=
  ⟨rfl,
    (selectedVoiceAlwaysLoaded ⟨true, true, true, true, fun _ => VoiceLoadResult.loaded, true⟩
      "alba" ⟨VOICES, "alba", false⟩ rfl).1,
    (selectedVoiceAlwaysLoaded ⟨true, true, true, true, fun _ => VoiceLoadResult.loaded, true⟩
      "alba" ⟨VOICES, "alba", false⟩ rfl).2
      (Env.mk (fun _ _ => [ChunkResult.ok [1]]) true) true [TTSCommand.speak "hi"] "ghost"⟩

/-- Witness for claim C8 at a concrete input. -/
theorem unknownChangeVoiceNoop_witness :
    ("ghost" : String) ∉ (⟨["alba"], "alba", false⟩ : Engine).voiceStates ∧
    runLoop (Env.mk (fun _ _ => []) true) true ⟨["alba"], "alba", false⟩
        (TTSCommand.changeVoice "ghost" :: []) =
      runLoop (Env.mk (fun _ _ => []) true) true ⟨["alba"], "alba", false⟩ [] ∧
    ((speakLoop true ⟨["alba"], "alba", true⟩ [TTSCommand.changeVoice "ghost"]
        (ChunkResult.ok [1] :: [])).st =
      (speakLoop true ⟨["alba"], "alba", true⟩ [] (ChunkResult.ok [1] :: [])).st ∧
      (speakLoop true ⟨["alba"], "alba", true⟩ [TTSCommand.changeVoice "ghost"]
        (ChunkResult.ok [1] :: [])).trace =
      (speakLoop true ⟨["alba"], "alba", true⟩ [] (ChunkResult.ok [1] :: [])).trace ∧
      (speakLoop true ⟨["alba"], "alba", true⟩ [TTSCommand.changeVoice "ghost"]
        (ChunkResult.ok [1] :: [])).exit =
      (speakLoop true ⟨["alba"], "alba", true⟩ [] (ChunkResult.ok [1] :: [])).exit) :=
  ⟨by decide,
    (unknownChangeVoiceNoop "ghost").1 (Env.mk (fun _ _ => []) true) true
      ⟨["alba"], "alba", false⟩ [] (by decide),
    (unknownChangeVoiceNoop "ghost").2 ⟨["alba"], "alba", true⟩ (ChunkResult.ok [1]) []
      (by decide)⟩

/-- Witness for claim C9 at a concrete input. -/
theorem oversizedClipboardDropped_witness :
    10000 < (rustTrim (List.replicate 10001 'a')).length ∧
    (monitorTick [] true false (some (List.replicate 10001 'a'))).2 = none ∧
    (monitorTick [] true false (some (List.replicate 10001 'a'))).1 =
      rustTrim (List.replicate 10001 'a') ∧
    (monitorTick (rustTrim (List.replicate 10001 'a')) true false
      (some (List.replicate 10001 'a'))).2 = none ∧
    (monitorTick (rustTrim (List.replicate 10001 'a')) true false
      (some (List.replicate 10001 'a'))).1 = rustTrim (List.replicate 10001 'a') := by
  have h : 10000 < (rustTrim (List.replicate 10001 'a')).length := by
    rw [rustTrim_replicate_a, List.length_replicate]
    omega
  exact ⟨h, (oversizedClipboardDropped [] (List.replicate 10001 'a') h).1,
    (oversizedClipboardDropped [] (List.replicate 10001 'a') h).2.1,
    (oversizedClipboardDropped [] (List.replicate 10001 'a') h).2.2.1,
    (oversizedClipboardDropped [] (List.replicate 10001 'a') h).2.2.2⟩

/-- Witness for claim C10 at a concrete input. -/
theorem voiceStoreFaultTolerance_witness :
    (InitEnv.mk true true true true
        (fun v => if v = "alba" then VoiceLoadResult.loadError else VoiceLoadResult.loaded)
        true).modelsDirExists = true ∧
    (InitEnv.mk true true true true
        (fun v => if v = "alba" then VoiceLoadResult.loadError else VoiceLoadResult.loaded)
        true).audioOk = true ∧
    ((∃ st, engineNew (InitEnv.mk true true true true
        (fun v => if v = "alba" then VoiceLoadResult.loadError else VoiceLoadResult.loaded)
        true) "cosette" = Except.ok st) ↔
      loadVoiceStates (InitEnv.mk true true true true
        (fun v => if v = "alba" then VoiceLoadResult.loadError else VoiceLoadResult.loaded)
        true) ≠ []) ∧
    ("alba" ∈ (⟨["azelma", "cosette", "eponine", "fantine", "javert", "jean", "marius"],
        "cosette", false⟩ : Engine).voiceStates ↔
      "alba" ∈ VOICES ∧
        (InitEnv.mk true true true true
          (fun v => if v = "alba" then VoiceLoadResult.loadError else VoiceLoadResult.loaded)
          true).voiceLoad "alba" = VoiceLoadResult.loaded) :=
  ⟨rfl, rfl,
    (voiceStoreFaultTolerance (InitEnv.mk true true true true
      (fun v => if v = "alba" then VoiceLoadResult.loadError else VoiceLoadResult.loaded)
      true) "cosette" rfl rfl rfl rfl rfl).1,
    (voiceStoreFaultTolerance (InitEnv.mk true true true true
      (fun v => if v = "alba" then VoiceLoadResult.loadError else VoiceLoadResult.loaded)
      true) "cosette" rfl rfl rfl rfl rfl).2
      ⟨["azelma", "cosette", "eponine", "fantine", "javert", "jean", "marius"],
        "cosette", false⟩ rfl "alba"⟩

end PocketTray
